import Mathlib

/-!
Shallow embedding of the AnyRouter sign-in / token-reconciliation module
(`src/api/ai-key.js`, class `AnyRouterSignIn`) and of the inventory
collaborator (`addKeys` in the same file).

Remote HTTP behaviour is abstracted by oracle functions / lists passed in as
an environment: `createOk` models whether a token-create call succeeds
(`createToken` returns a boolean), `fetch1` / `fetch2` model the two
`getTokens` results (that function returns `[]` on any failure and the
server list otherwise), and `updateResp` models `updateToken`, which
returns the server-confirmed token record on success and `null` otherwise.
JavaScript truthiness on optional numbers and strings is modelled
explicitly (`truthyNat`, `truthyStr`).
-/

namespace AnyRouter

/-- JS truthiness of an optional number: absent and 0 are falsy. -/
def truthyNat : Option Nat → Bool
  | none => false
  | some n => n != 0

/-- JS truthiness of an optional string: absent and the empty string are falsy. -/
def truthyStr : Option String → Bool
  | none => false
  | some s => s != ""

/-- A remote token record as returned by the gateway token-list endpoint. -/
structure TokenRecord where
  id : Nat
  key : String
  name : String
  unlimited_quota : Bool
  used_quota : Nat
  remain_quota : Nat
deriving Repr, DecidableEq

/-- A declarative token intent from the account configuration
(`accountInfo.tokens` entries). Optional fields are `Option`;
`is_deleted` and `unlimited_quota` model `|| false` truthiness. -/
structure TokenIntent where
  id : Option Nat
  name : Option String
  is_deleted : Bool
  unlimited_quota : Bool
  remain_quota : Option Nat
  supplement_quota : Option Nat
deriving Repr, DecidableEq

/-- The request body of a token-create call, as built by `createToken`:
`name: tokenConfig.name || 'dw'`, and either `unlimited_quota: true` or
`remain_quota: tokenConfig.remain_quota || 500000`. -/
structure CreateRequest where
  name : String
  unlimited_quota : Bool
  remain_quota : Option Nat
deriving Repr, DecidableEq

/-- The create request `createToken` builds for an intent, after
`loginAndGetSession` passes `{unlimited_quota: cfg.unlimited_quota || false,
remain_quota: cfg.remain_quota, name: cfg.name}`. -/
def createRequestOf (cfg : TokenIntent) : CreateRequest :=
  { name := if truthyStr cfg.name then cfg.name.getD "" else "dw"
    unlimited_quota := cfg.unlimited_quota
    remain_quota :=
      if cfg.unlimited_quota then none
      else some (if truthyNat cfg.remain_quota then cfg.remain_quota.getD 0 else 500000) }

/-- Code-point prefix test on char lists. -/
def charsLe : List Char → List Char → Bool
  | [], _ => true
  | _ :: _, [] => false
  | a :: as, b :: bs => a == b && charsLe as bs

/-- `s.startsWith(pat)`: the JS string method, as a code-point prefix test
(equivalent to the UTF-16 test for a prefix check). -/
def strStartsWith (s pat : String) : Bool := charsLe pat.data s.data

/-- The resale-name marker checked with `tokenConfig.name.startsWith('出售_')`. -/
def sellMarker : String := "出售_"

/-- A resale candidate recorded after a successful create of a marker-named
token: `{name: tokenConfig.name, remain_quota: tokenConfig.remain_quota}`. -/
structure PendingSale where
  name : String
  remain_quota : Option Nat
deriving Repr, DecidableEq

/-- The calls emitted and candidates recorded by the intent-processing loop. -/
structure IntentTrace where
  deleteCalls : List Nat
  createCalls : List CreateRequest
  pendingSales : List PendingSale
deriving Repr, DecidableEq

/-- One iteration of the intent loop in `loginAndGetSession`:
delete when `tokenConfig.id && tokenConfig.is_deleted`, create when
`!tokenConfig.id`, and record a pending sale when the create succeeded and
the name starts with the resale marker. -/
def processIntent (createOk : CreateRequest → Bool) (cfg : TokenIntent) : IntentTrace :=
  if truthyNat cfg.id && cfg.is_deleted then
    { deleteCalls := [cfg.id.getD 0], createCalls := [], pendingSales := [] }
  else if !truthyNat cfg.id then
    let req := createRequestOf cfg
    { deleteCalls := []
      createCalls := [req]
      pendingSales :=
        if createOk req && truthyStr cfg.name && strStartsWith (cfg.name.getD "") sellMarker then
          [{ name := cfg.name.getD "", remain_quota := cfg.remain_quota }]
        else [] }
  else { deleteCalls := [], createCalls := [], pendingSales := [] }

/-- The whole intent-processing loop, in intent order. -/
def processIntents (createOk : CreateRequest → Bool) : List TokenIntent → IntentTrace
  | [] => { deleteCalls := [], createCalls := [], pendingSales := [] }
  | cfg :: rest =>
      let t := processIntent createOk cfg
      let r := processIntents createOk rest
      { deleteCalls := t.deleteCalls ++ r.deleteCalls
        createCalls := t.createCalls ++ r.createCalls
        pendingSales := t.pendingSales ++ r.pendingSales }

/-- The supplement filter `(t) => t.supplement_quota && t.supplement_quota > 0`. -/
def isSupplement (cfg : TokenIntent) : Bool :=
  truthyNat cfg.supplement_quota && decide (0 < cfg.supplement_quota.getD 0)

/-- In-place mutation `matchedToken.remain_quota = q` of the first list
entry whose `id` matches (the one `tokens.find` returned). -/
def setQuotaFirst : List TokenRecord → Nat → Nat → List TokenRecord
  | [], _, _ => []
  | t :: rest, tid, q =>
      if t.id = tid then { t with remain_quota := q } :: rest
      else t :: setQuotaFirst rest tid q

/-- One supplement iteration: find the live token by id, build the full
update request with `remain_quota := (matched.remain_quota || 0) +
supplement_quota`, and on update success overwrite the in-memory
`remain_quota` with the server-confirmed value. Returns the new token list
and the list (zero or one) of update requests issued. -/
def supplementOne (upd : TokenRecord → Option TokenRecord)
    (tokens : List TokenRecord) (cfg : TokenIntent) :
    List TokenRecord × List TokenRecord :=
  match tokens.find? (fun t => cfg.id == some t.id) with
  | none => (tokens, [])
  | some m =>
      let req : TokenRecord := { m with remain_quota := m.remain_quota + cfg.supplement_quota.getD 0 }
      match upd req with
      | some server => (setQuotaFirst tokens m.id server.remain_quota, [req])
      | none => (tokens, [req])

/-- The supplement loop over the filtered intents, threading the mutated
token list. -/
def applySupplements (upd : TokenRecord → Option TokenRecord) :
    List TokenIntent → List TokenRecord → List TokenRecord × List TokenRecord
  | [], tokens => (tokens, [])
  | cfg :: rest, tokens =>
      let p := supplementOne upd tokens cfg
      let r := applySupplements upd rest p.1
      (r.1, p.2 ++ r.2)

/-- Remote behaviour surrounding the bootstrap / supplementation block. -/
structure ReconcileEnv where
  fetch1 : List TokenRecord
  fallbackCreateOk : Bool
  fetch2 : List TokenRecord
  updateResp : TokenRecord → Option TokenRecord

/-- Outcome of the bootstrap / supplementation block. -/
structure ReconcileTrace where
  fallbackCreates : Nat
  updateCalls : List TokenRecord
  tokens : List TokenRecord

/-- Lines 957-1015 of the source: fetch the live list; if it is empty,
issue exactly one fallback unlimited-quota create and refetch only when
that create succeeded; otherwise run quota supplementation over the
intents with positive `supplement_quota`. -/
def reconcile (intents : List TokenIntent) (env : ReconcileEnv) : ReconcileTrace :=
  if env.fetch1.length = 0 then
    { fallbackCreates := 1
      updateCalls := []
      tokens := if env.fallbackCreateOk then env.fetch2 else env.fetch1 }
  else
    let r := applySupplements env.updateResp (intents.filter isSupplement) env.fetch1
    { fallbackCreates := 0, updateCalls := r.2, tokens := r.1 }

/-- A record built for the inventory upload (`keysToUpload.push({...})`). -/
structure KeyRecord where
  key : String
  key_type : String
  is_sold : Bool
  quota : ℚ
  source_name : String
  account_id : String
deriving Repr, DecidableEq

/-- The quota field of an upload record:
`pending.remain_quota ? pending.remain_quota / 500000 : 0`. -/
def quotaOfPending (p : PendingSale) : ℚ :=
  if truthyNat p.remain_quota then (p.remain_quota.getD 0 : ℚ) / 500000 else 0

/-- One iteration of the upload-building loop: find the first live token
with the pending name; push a record only when it exists and its key is
truthy (non-empty). -/
def recordForPending (username accountId : String) (tokens : List TokenRecord)
    (p : PendingSale) : Option KeyRecord :=
  match tokens.find? (fun t => t.name == p.name) with
  | some m =>
      if m.key != "" then
        some { key := m.key
               key_type := "anyrouter"
               is_sold := false
               quota := quotaOfPending p
               source_name := username ++ "&" ++ p.name
               account_id := accountId }
      else none
  | none => none

/-- The `keysToUpload` list built from the pending sales against the final
live token list (each loop iteration pushes at most one record). -/
def buildKeysToUpload (username accountId : String) (pendings : List PendingSale)
    (tokens : List TokenRecord) : List KeyRecord :=
  pendings.filterMap (recordForPending username accountId tokens)

/-- The `addKeys` calls issued by the publisher: one single call with the
whole `keysToUpload` list when it is non-empty, none otherwise. -/
def uploadCallsOf (username accountId : String) (pendings : List PendingSale)
    (tokens : List TokenRecord) : List (List KeyRecord) :=
  if pendings.length > 0 then
    if (buildKeysToUpload username accountId pendings tokens).length > 0 then
      [buildKeysToUpload username accountId pendings tokens]
    else []
  else []

/-- Rejection reasons of the inventory collaborator `addKeys`. -/
inductive AddKeysError where
  | emptyList
  | tooMany
  | itemInvalid
deriving Repr, DecidableEq

/-- Outcome of the inventory collaborator `addKeys`. -/
inductive AddKeysResult where
  | ok (requestKeys : List KeyRecord)
  | error (e : AddKeysError)
deriving Repr, DecidableEq

/-- The per-item validation of `addKeys`: key truthy and 1..500 chars,
`key_type` in the enum, quota non-negative, source name at most 200 chars. -/
def validKeyItem (k : KeyRecord) : Bool :=
  k.key != "" && decide (1 ≤ k.key.length) && decide (k.key.length ≤ 500) &&
  (k.key_type == "coderouter" || k.key_type == "anyrouter" || k.key_type == "other") &&
  decide (0 ≤ k.quota) && decide (k.source_name.length ≤ 200)

/-- The inventory collaborator `addKeys` (validation layer): reject an
empty list, reject more than 100 records, reject any invalid item, and
otherwise accept the request list (all optional fields of the records the
publisher builds are present, so the defaulting map is the identity). -/
def addKeysModel (keys : List KeyRecord) : AddKeysResult :=
  if keys.length = 0 then .error .emptyList
  else if keys.length > 100 then .error .tooMany
  else if keys.all validKeyItem then .ok keys
  else .error .itemInvalid

/-- The account configuration object `accountInfo` that `loginAndGetSession`
optionally receives (`username`, `_id`, `tokens`). -/
structure AccountInfo where
  username : String
  mongoId : String
  tokens : Option (List TokenIntent)
deriving Repr, DecidableEq

/-- Remote behaviour for one account run's token phase. -/
structure RunEnv where
  createOk : CreateRequest → Bool
  fetch1 : List TokenRecord
  fallbackCreateOk : Bool
  fetch2 : List TokenRecord
  updateResp : TokenRecord → Option TokenRecord

/-- All calls emitted by one account run's token phase, plus the final
in-memory token list. -/
structure RunTrace where
  deleteCalls : List Nat
  createCalls : List CreateRequest
  pendingSales : List PendingSale
  fallbackCreates : Nat
  updateCalls : List TokenRecord
  uploads : List (List KeyRecord)
  tokens : List TokenRecord

/-- The token phase of `loginAndGetSession` (intent loop, bootstrap /
supplementation, resale publication), parameterised by the optional
`accountInfo` argument. The intent loop and the supplement filter are both
guarded by `accountInfo && accountInfo.tokens && Array.isArray(...)`, which
is modelled by defaulting the intent list to `[]`; `accountInfo.username`
and `accountInfo._id` are read only when a pending sale exists, which
forces `accountInfo` to be present. -/
def runTokenPhase (ai : Option AccountInfo) (env : RunEnv) : RunTrace :=
  let intents := (ai.bind AccountInfo.tokens).getD []
  let it := processIntents env.createOk intents
  let rc := reconcile intents
    { fetch1 := env.fetch1, fallbackCreateOk := env.fallbackCreateOk
      fetch2 := env.fetch2, updateResp := env.updateResp }
  let uname := match ai with | some i => i.username | none => ""
  let aid := match ai with | some i => i.mongoId | none => ""
  { deleteCalls := it.deleteCalls
    createCalls := it.createCalls
    pendingSales := it.pendingSales
    fallbackCreates := rc.fallbackCreates
    updateCalls := rc.updateCalls
    uploads := uploadCallsOf uname aid it.pendingSales rc.tokens
    tokens := rc.tokens }

/-- An entry of the `accounts` array handed to `processAccounts`. -/
structure Account where
  username : String
  password : String
  tokens : Option (List TokenIntent)
deriving Repr, DecidableEq

/-- The token phase as executed from the batch runner: `processAccounts`
calls `this.loginAndGetSession(account.username, account.password)` with
the `accountInfo` argument omitted, so it defaults to `null`. -/
def batchTokenPhase (env : RunEnv) (_a : Account) : RunTrace :=
  runTokenPhase none env

/-- The user profile fields involved in bonus settlement
(`userData.quota`, `userData.aff_quota`). -/
structure UserData where
  quota : Int
  aff_quota : Int
deriving Repr, DecidableEq

/-- Reported outcome of the `aff_transfer` call. -/
inductive TransferOutcome where
  | success
  | failure
  | transportError
deriving Repr, DecidableEq

/-- The bonus-settlement block: when `userData.aff_quota && aff_quota > 0`,
issue the transfer call and then, regardless of its outcome, set
`quota = quota + aff_quota` and `aff_quota = 0`. -/
def bonusStep (_outcome : TransferOutcome) (u : UserData) : UserData :=
  if u.aff_quota ≠ 0 ∧ 0 < u.aff_quota then
    { quota := u.quota + u.aff_quota, aff_quota := 0 }
  else u

/-- One entry of the result array built by `processAccounts`. -/
structure RunResult where
  username : String
  success : Bool
  data : Option UserData
deriving Repr, DecidableEq

/-- The batch runner loop: for each account, run `loginAndGetSession`
(abstracted as `login`, total because that method catches every exception
and returns `null`), and push `{username, success: result !== null,
data: result}`. -/
def processAccounts (login : String → String → Option UserData)
    (accounts : List Account) : List RunResult :=
  accounts.map (fun a =>
    { username := a.username
      success := (login a.username a.password).isSome
      data := login a.username a.password })

/-- The three scoped browser resources of one run. -/
inductive Resource where
  | page
  | ctx
  | browser
deriving Repr, DecidableEq

/-- State at the entry of the `finally` block: which resources were
acquired (acquisition order browser, then context, then page), and whether
each close operation itself raises. -/
structure CleanupEnv where
  pageAcquired : Bool
  contextAcquired : Bool
  browserAcquired : Bool
  pageCloseThrows : Bool
  contextCloseThrows : Bool
  browserCloseThrows : Bool
deriving Repr, DecidableEq

/-- Run a sequence of close attempts inside one try/catch: a throwing
close is caught, and the remaining attempts are skipped. -/
def attemptCloses : List (Resource × Bool) → List Resource
  | [] => []
  | (r, throws) :: rest => if throws then [r] else r :: attemptCloses rest

/-- The close attempts the `finally` block schedules: close the page when
acquired (it is never closed earlier, so `page.isClosed()` is false), then
the context when acquired, then the browser when acquired. -/
def cleanupPlan (e : CleanupEnv) : List (Resource × Bool) :=
  (if e.pageAcquired then [(Resource.page, e.pageCloseThrows)] else []) ++
  (if e.contextAcquired then [(Resource.ctx, e.contextCloseThrows)] else []) ++
  (if e.browserAcquired then [(Resource.browser, e.browserCloseThrows)] else [])

/-- The close calls actually performed by the `finally` block. -/
def cleanupCloseCalls (e : CleanupEnv) : List Resource :=
  attemptCloses (cleanupPlan e)

/-- The possible outcomes of the body of `loginAndGetSession`. -/
inductive RunOutcome where
  | success
  | loginFailure
  | raised
deriving Repr, DecidableEq

/-- The close calls performed at the end of a run: the cleanup sits in a
`finally` block, so it runs identically for every body outcome. -/
def finallyCloseCalls (_outcome : RunOutcome) (e : CleanupEnv) : List Resource :=
  cleanupCloseCalls e

/-- Whether some live token has the given (optional) intent id. Because
`setQuotaFirst` never changes ids, this is invariant across the supplement
loop, making it the right match predicate for counting update calls. -/
def hasId (tokens : List TokenRecord) (oid : Option Nat) : Bool :=
  tokens.any (fun t => oid == some t.id)

/-- Whether the first live token carrying the candidate name (the one
`tokens.find` returns) has a non-empty key. -/
def firstMatchHasKey (tokens : List TokenRecord) (p : PendingSale) : Bool :=
  match tokens.find? (fun t => t.name == p.name) with
  | some m => m.key != ""
  | none => false

/-! ## Shared concrete inputs -/

/-- A creation intent with no name and no quota given. -/
def cfgNoName : TokenIntent :=
  { id := none, name := none, is_deleted := false, unlimited_quota := false,
    remain_quota := none, supplement_quota := none }

/-- A creation intent with an explicit name and quota. -/
def cfgNamed : TokenIntent :=
  { id := none, name := some "abc", is_deleted := false, unlimited_quota := false,
    remain_quota := some 7, supplement_quota := none }

/-- A profile with balance 1000 and bonus balance 200. -/
def u1000 : UserData := { quota := 1000, aff_quota := 200 }

/-- A creation intent whose name carries the resale marker. -/
def cfgSale : TokenIntent :=
  { id := none, name := some "出售_x", is_deleted := false, unlimited_quota := false,
    remain_quota := some 500000, supplement_quota := none }

/-- A deletion intent for token id 5. -/
def cfgDel : TokenIntent :=
  { id := some 5, name := none, is_deleted := true, unlimited_quota := false,
    remain_quota := none, supplement_quota := none }

/-- A supplement intent: top up token id 1 by 50. -/
def cfgSupp : TokenIntent :=
  { id := some 1, name := none, is_deleted := false, unlimited_quota := false,
    remain_quota := none, supplement_quota := some 50 }

/-- A live token with id 1 and remaining quota 100. -/
def tok1 : TokenRecord :=
  { id := 1, key := "k1", name := "t1", unlimited_quota := false,
    used_quota := 0, remain_quota := 100 }

/-- A create oracle on which every create call succeeds. -/
def alwaysOk : CreateRequest → Bool := fun _ => true

/-- An intent list with one resale creation, one deletion and one plain
creation. -/
def lC4 : List TokenIntent := [cfgSale, cfgDel, cfgNoName]

/-- Reconciliation environment for a run whose first re-fetch is empty,
whose fallback create succeeds, and whose second fetch returns a token
matching the supplement intent. -/
def envC1bad : ReconcileEnv :=
  { fetch1 := [], fallbackCreateOk := true, fetch2 := [tok1],
    updateResp := fun _ => none }

/-- Reconciliation environment where the live list holds token 1 with
quota 100 and the server confirms every update with 20 extra units. -/
def envC1 : ReconcileEnv :=
  { fetch1 := [tok1], fallbackCreateOk := true, fetch2 := [],
    updateResp := fun r => some { r with remain_quota := r.remain_quota + 20 } }

/-- Reconciliation environment whose first fetch is empty and whose
fallback create fails. -/
def envC3 : ReconcileEnv :=
  { fetch1 := [], fallbackCreateOk := false, fetch2 := [],
    updateResp := fun _ => none }

/-- A live token named like a resale candidate but with an empty key. -/
def tokEmptyKey : TokenRecord :=
  { id := 11, key := "", name := "出售_x", unlimited_quota := false,
    used_quota := 0, remain_quota := 0 }

/-- A live token named like a resale candidate with a usable key. -/
def tokGoodKey : TokenRecord :=
  { id := 12, key := "abc", name := "出售_x", unlimited_quota := false,
    used_quota := 0, remain_quota := 500000 }

/-- A resale candidate for name 出售_x with quota 500000. -/
def pendX : PendingSale := { name := "出售_x", remain_quota := some 500000 }

/-- 101 identical resale candidates. -/
def pend101 : List PendingSale :=
  List.replicate 101 { name := "出售_a", remain_quota := some 500000 }

/-- A live token matching the 出售_a candidates. -/
def tokA : TokenRecord :=
  { id := 7, key := "ka", name := "出售_a", unlimited_quota := false,
    used_quota := 0, remain_quota := 500000 }

/-- Run environment for the batch counterexample: empty first fetch,
succeeding fallback, all creates succeed. -/
def envC2 : RunEnv :=
  { createOk := fun _ => true, fetch1 := [], fallbackCreateOk := true,
    fetch2 := [tok1], updateResp := fun _ => none }

/-- A batch account entry carrying one creation intent. -/
def aC2 : Account := { username := "u", password := "p", tokens := some [cfgSale] }

/-- The account info object a direct (non-batch) invocation would pass. -/
def aiC2 : AccountInfo := { username := "u", mongoId := "aid", tokens := some [cfgSale] }

/-- A login oracle that fails exactly for username u2. -/
def loginC9 : String → String → Option UserData :=
  fun u _ => if u = "u2" then none else some u1000

/-- Three batch accounts; the second one will fail to log in. -/
def accountsC9 : List Account :=
  [{ username := "u1", password := "p1", tokens := none },
   { username := "u2", password := "p2", tokens := none },
   { username := "u3", password := "p3", tokens := none }]

/-- Cleanup state: all three resources acquired, no close throws. -/
def eAll : CleanupEnv :=
  { pageAcquired := true, contextAcquired := true, browserAcquired := true,
    pageCloseThrows := false, contextCloseThrows := false, browserCloseThrows := false }

/-- Cleanup state: all three resources acquired, the page close throws. -/
def eThrowing : CleanupEnv :=
  { pageAcquired := true, contextAcquired := true, browserAcquired := true,
    pageCloseThrows := true, contextCloseThrows := false, browserCloseThrows := false }

/-! ## Theorems -/

/-- C5 (amended): for every creation intent, the create request built by
`createToken` uses the intent name when one is given and non-empty and the
default name "dw" otherwise, carries the intent's unlimited-quota flag,
omits `remain_quota` when unlimited, and otherwise uses the intent's
`remain_quota` when given and non-zero and the default 500000 otherwise. -/
theorem C5_create_defaults (cfg : TokenIntent) :
    (∀ s, cfg.name = some s → s ≠ "" → (createRequestOf cfg).name = s) ∧
    (cfg.name = none → (createRequestOf cfg).name = "dw") ∧
    (cfg.name = some "" → (createRequestOf cfg).name = "dw") ∧
    (createRequestOf cfg).unlimited_quota = cfg.unlimited_quota ∧
    (cfg.unlimited_quota = true → (createRequestOf cfg).remain_quota = none) ∧
    (cfg.unlimited_quota = false → ∀ q, cfg.remain_quota = some q → q ≠ 0 →
      (createRequestOf cfg).remain_quota = some q) ∧
    (cfg.unlimited_quota = false → cfg.remain_quota = none →
      (createRequestOf cfg).remain_quota = some 500000) := by
  refine ⟨?_, ?_, ?_, rfl, ?_, ?_, ?_⟩
  · intro s hs hne
    simp [createRequestOf, truthyStr, hs, hne]
  · intro hs
    simp [createRequestOf, truthyStr, hs]
  · intro hs
    simp [createRequestOf, truthyStr, hs]
  · intro hu
    simp [createRequestOf, hu]
  · intro hu q hq hne
    simp [createRequestOf, truthyNat, hu, hq, hne]
  · intro hu hq
    simp [createRequestOf, truthyNat, hu, hq]

/-- C5 counterexample: for the concrete creation intent with no name
given, the create call uses the name "dw", not the name "default" the
claim states. -/
theorem C5_default_name_is_dw :
    (createRequestOf cfgNoName).name = "dw" ∧ (createRequestOf cfgNoName).name ≠ "default" := by
  decide

/-- C5 witness: the amended theorem applied at a concrete intent. -/
theorem C5_create_defaults_witness :
    cfgNamed.name = some "abc" ∧ (createRequestOf cfgNamed).name = "abc" ∧
    (createRequestOf cfgNamed).remain_quota = some 7 :=
  ⟨rfl, (C5_create_defaults cfgNamed).1 "abc" rfl (by decide),
    (C5_create_defaults cfgNamed).2.2.2.2.2.1 rfl 7 rfl (by decide)⟩

/-- C6 (confirmed): for every profile with a positive bonus balance, after
the settlement block the balance equals the old balance plus the bonus and
the bonus balance is zero, and the result does not depend on the reported
outcome of the transfer call. -/
theorem C6_bonus_settlement (o : TransferOutcome) (u : UserData) (h : 0 < u.aff_quota) :
    (bonusStep o u).quota = u.quota + u.aff_quota ∧
    (bonusStep o u).aff_quota = 0 ∧
    (∀ o2 : TransferOutcome, bonusStep o2 u = bonusStep o u) := by
  have hz : u.aff_quota ≠ 0 := ne_of_gt h
  unfold bonusStep
  rw [if_pos (And.intro hz h)]
  exact ⟨rfl, rfl, fun _ => rfl⟩

/-- C6 witness: balance 1000 with bonus 200 settles to balance 1200 and
bonus 0, for a failing transfer call. -/
theorem C6_bonus_settlement_witness :
    0 < u1000.aff_quota ∧
    ((bonusStep TransferOutcome.failure u1000).quota = u1000.quota + u1000.aff_quota ∧
     (bonusStep TransferOutcome.failure u1000).aff_quota = 0 ∧
     (∀ o2 : TransferOutcome, bonusStep o2 u1000 = bonusStep TransferOutcome.failure u1000)) :=
  ⟨by decide, C6_bonus_settlement TransferOutcome.failure u1000 (by decide)⟩

/-- The truthiness guard on the name is absorbed by the marker test, since
the empty string does not start with the marker. -/
theorem pendingCond_absorb (b : Bool) (n : Option String) :
    (b && truthyStr n && strStartsWith (n.getD "") sellMarker)
      = (b && strStartsWith (n.getD "") sellMarker) := by
  cases n with
  | none =>
      have h : strStartsWith "" sellMarker = false := by decide
      simp [truthyStr, h]
  | some s =>
      by_cases hs : s = ""
      · subst hs
        have h : strStartsWith "" sellMarker = false := by decide
        simp [truthyStr, h]
      · have h2 : (s != "") = true := bne_iff_ne.mpr hs
        simp [truthyStr, h2]

/-- C4 (confirmed): over any intent list whose ids are genuine (no zero
id, which JS truthiness would conflate with absence), the create calls
are, in order, exactly one per intent without an id, and a resale
candidate `{name, remain_quota}` is recorded for such an intent exactly
when its create call succeeds and its name starts with the resale
marker. -/
theorem C4_creations (createOk : CreateRequest → Bool) (l : List TokenIntent)
    (hpos : ∀ c ∈ l, c.id ≠ some 0) :
    (processIntents createOk l).createCalls =
      (l.filter (fun c => c.id.isNone)).map createRequestOf ∧
    (processIntents createOk l).pendingSales =
      ((l.filter (fun c => c.id.isNone)).filter
        (fun c => createOk (createRequestOf c) && strStartsWith (c.name.getD "") sellMarker)).map
        (fun c => { name := c.name.getD "", remain_quota := c.remain_quota }) := by
  revert hpos
  induction l with
  | nil => intro _; exact ⟨rfl, rfl⟩
  | cons c rest ih =>
      intro hpos
      obtain ⟨ih1, ih2⟩ := ih (fun x hx => hpos x (List.mem_cons_of_mem _ hx))
      cases hid : c.id with
      | none =>
          constructor
          · simp [processIntents, processIntent, hid, truthyNat, List.filter_cons, ih1]
          · rw [show (processIntents createOk (c :: rest)).pendingSales =
                (processIntent createOk c).pendingSales ++ (processIntents createOk rest).pendingSales
                from rfl]
            have hcr : processIntent createOk c =
                { deleteCalls := []
                  createCalls := [createRequestOf c]
                  pendingSales :=
                    if createOk (createRequestOf c) && truthyStr c.name &&
                        strStartsWith (c.name.getD "") sellMarker then
                      [{ name := c.name.getD "", remain_quota := c.remain_quota }]
                    else [] } := by
              simp [processIntent, hid, truthyNat]
            rw [hcr, ih2]
            simp only [List.filter_cons, hid, Option.isNone_none, cond_true]
            rw [pendingCond_absorb]
            by_cases hcond :
                (createOk (createRequestOf c) && strStartsWith (c.name.getD "") sellMarker) = true
            · simp [hcond]
            · simp [hcond]
      | some n =>
          have hn : n ≠ 0 := by
            intro h0
            exact hpos c (by simp) (by rw [hid, h0])
          have htr : truthyNat c.id = true := by simp [truthyNat, hid, hn]
          have hskip : (processIntent createOk c).createCalls = [] ∧
              (processIntent createOk c).pendingSales = [] := by
            unfold processIntent
            rw [htr]
            cases c.is_deleted <;> simp
          constructor
          · rw [show (processIntents createOk (c :: rest)).createCalls =
                (processIntent createOk c).createCalls ++ (processIntents createOk rest).createCalls
                from rfl, hskip.1, ih1]
            simp [List.filter_cons, hid]
          · rw [show (processIntents createOk (c :: rest)).pendingSales =
                (processIntent createOk c).pendingSales ++ (processIntents createOk rest).pendingSales
                from rfl, hskip.2, ih2]
            simp [List.filter_cons, hid]

/-- C4 witness: the theorem applied to a concrete list with a marked
creation, a deletion and an unnamed creation, under the all-succeed create
oracle. -/
theorem C4_creations_witness :
    (∀ c ∈ lC4, c.id ≠ some 0) ∧
    ((processIntents alwaysOk lC4).createCalls =
      (lC4.filter (fun c => c.id.isNone)).map createRequestOf ∧
     (processIntents alwaysOk lC4).pendingSales =
      ((lC4.filter (fun c => c.id.isNone)).filter
        (fun c => alwaysOk (createRequestOf c) && strStartsWith (c.name.getD "") sellMarker)).map
        (fun c => { name := c.name.getD "", remain_quota := c.remain_quota })) :=
  ⟨by decide, C4_creations alwaysOk lC4 (by decide)⟩

/-- Overwriting the quota of the first matching token never changes the
id sequence of the list. -/
theorem setQuotaFirst_map_id (tokens : List TokenRecord) (tid q : Nat) :
    (setQuotaFirst tokens tid q).map TokenRecord.id = tokens.map TokenRecord.id := by
  induction tokens with
  | nil => rfl
  | cons t rest ih =>
      unfold setQuotaFirst
      by_cases h : t.id = tid
      · simp [h]
      · simp [h, ih]

/-- One supplement step never changes the id sequence of the token list. -/
theorem supplementOne_fst_map_id (upd : TokenRecord → Option TokenRecord)
    (tokens : List TokenRecord) (cfg : TokenIntent) :
    ((supplementOne upd tokens cfg).1).map TokenRecord.id = tokens.map TokenRecord.id := by
  unfold supplementOne
  cases hf : tokens.find? (fun t => cfg.id == some t.id) with
  | none => rfl
  | some m =>
      cases hu : upd { m with remain_quota := m.remain_quota + cfg.supplement_quota.getD 0 } with
      | none => simp [hu]
      | some server => simp [hu, setQuotaFirst_map_id]

/-- The supplement loop never changes the id sequence of the token list. -/
theorem applySupplements_fst_map_id (upd : TokenRecord → Option TokenRecord)
    (l : List TokenIntent) (tokens : List TokenRecord) :
    ((applySupplements upd l tokens).1).map TokenRecord.id = tokens.map TokenRecord.id := by
  induction l generalizing tokens with
  | nil => rfl
  | cons cfg rest ih =>
      simp only [applySupplements]
      exact (ih _).trans (supplementOne_fst_map_id _ _ _)

/-- `hasId` only looks at the id sequence. -/
theorem hasId_congr {t1 t2 : List TokenRecord}
    (h : t1.map TokenRecord.id = t2.map TokenRecord.id) (oid : Option Nat) :
    hasId t1 oid = hasId t2 oid := by
  induction t1 generalizing t2 with
  | nil =>
      cases t2 with
      | nil => rfl
      | cons b bs => simp at h
  | cons a as ih =>
      cases t2 with
      | nil => simp at h
      | cons b bs =>
          simp only [List.map_cons, List.cons.injEq] at h
          obtain ⟨h1, h2⟩ := h
          have ih2 := ih h2
          unfold hasId at ih2 ⊢
          simp only [List.any_cons]
          rw [h1, ih2]

/-- A failed find means no live token has the id. -/
theorem hasId_false_of_find?_none {tokens : List TokenRecord} {oid : Option Nat}
    (h : tokens.find? (fun t => oid == some t.id) = none) :
    hasId tokens oid = false := by
  rw [List.find?_eq_none] at h
  unfold hasId
  cases hb : tokens.any (fun t => oid == some t.id) with
  | false => rfl
  | true =>
      obtain ⟨x, hx, hpx⟩ := List.any_eq_true.mp hb
      exact absurd hpx (h x hx)

/-- A successful find means some live token has the id. -/
theorem hasId_true_of_find?_some {tokens : List TokenRecord} {oid : Option Nat}
    {m : TokenRecord} (h : tokens.find? (fun t => oid == some t.id) = some m) :
    hasId tokens oid = true := by
  have hmem : m ∈ tokens := List.mem_of_find?_eq_some h
  have hp := List.find?_some h
  simp only at hp
  exact List.any_eq_true.mpr ⟨m, hmem, hp⟩

/-- A supplement step issues exactly one update call when a live token
matches the intent id and none otherwise. -/
theorem supplementOne_snd_length (upd : TokenRecord → Option TokenRecord)
    (tokens : List TokenRecord) (cfg : TokenIntent) :
    (supplementOne upd tokens cfg).2.length = if hasId tokens cfg.id then 1 else 0 := by
  cases hf : tokens.find? (fun t => cfg.id == some t.id) with
  | none =>
      rw [hasId_false_of_find?_none hf]
      simp [supplementOne, hf]
  | some m =>
      rw [hasId_true_of_find?_some hf]
      unfold supplementOne
      rw [hf]
      cases hu : upd { m with remain_quota := m.remain_quota + cfg.supplement_quota.getD 0 } with
      | none => simp [hu]
      | some server => simp [hu]

/-- The supplement loop issues exactly one update call per intent whose id
matches a live token (matching is stable because ids never change). -/
theorem applySupplements_snd_length (upd : TokenRecord → Option TokenRecord)
    (l : List TokenIntent) (tokens : List TokenRecord) :
    (applySupplements upd l tokens).2.length =
      (l.filter (fun cfg => hasId tokens cfg.id)).length := by
  induction l generalizing tokens with
  | nil => rfl
  | cons cfg rest ih =>
      simp only [applySupplements, List.length_append, List.filter_cons]
      rw [supplementOne_snd_length, ih ((supplementOne upd tokens cfg).1),
        List.filter_congr
          (fun x _ => hasId_congr (supplementOne_fst_map_id upd tokens cfg) x.id)]
      by_cases hc : hasId tokens cfg.id = true
      · simp [hc]
        omega
      · simp [hc]

/-- Behaviour of a single supplement step when the find succeeds: the
update request is the matched record with quota raised by the supplement,
and on a successful update the in-memory list takes the server-confirmed
quota. -/
theorem supplementOne_found (upd : TokenRecord → Option TokenRecord)
    (tokens : List TokenRecord) (cfg : TokenIntent) (m : TokenRecord)
    (hm : tokens.find? (fun t => cfg.id == some t.id) = some m) :
    (supplementOne upd tokens cfg).2 =
      [{ m with remain_quota := m.remain_quota + cfg.supplement_quota.getD 0 }] ∧
    (∀ server, upd { m with remain_quota := m.remain_quota + cfg.supplement_quota.getD 0 } = some server →
      (supplementOne upd tokens cfg).1 = setQuotaFirst tokens m.id server.remain_quota) ∧
    (upd { m with remain_quota := m.remain_quota + cfg.supplement_quota.getD 0 } = none →
      (supplementOne upd tokens cfg).1 = tokens) := by
  cases hu : upd { m with remain_quota := m.remain_quota + cfg.supplement_quota.getD 0 } with
  | none =>
      have key : supplementOne upd tokens cfg =
          (tokens, [{ m with remain_quota := m.remain_quota + cfg.supplement_quota.getD 0 }]) := by
        simp only [supplementOne, hm, hu]
      rw [key]
      refine ⟨rfl, ?_, fun _ => rfl⟩
      intro server hs
      cases hs
  | some server =>
      have key : supplementOne upd tokens cfg =
          (setQuotaFirst tokens m.id server.remain_quota,
           [{ m with remain_quota := m.remain_quota + cfg.supplement_quota.getD 0 }]) := by
        simp only [supplementOne, hm, hu]
      rw [key]
      refine ⟨rfl, ?_, ?_⟩
      · intro s2 hs
        cases hs
        rfl
      · intro hn
        cases hn

/-- Behaviour of a single supplement step when no live token matches: the
intent is skipped without any call and without touching the list. -/
theorem supplementOne_not_found (upd : TokenRecord → Option TokenRecord)
    (tokens : List TokenRecord) (cfg : TokenIntent)
    (hm : tokens.find? (fun t => cfg.id == some t.id) = none) :
    supplementOne upd tokens cfg = (tokens, []) := by
  unfold supplementOne
  rw [hm]

/-- The supplement loop on a single intent is that intent's step. -/
theorem applySupplements_single (upd : TokenRecord → Option TokenRecord)
    (cfg : TokenIntent) (tokens : List TokenRecord) :
    applySupplements upd [cfg] tokens = supplementOne upd tokens cfg := by
  simp [applySupplements]

/-- C1 (amended): quota supplementation runs only in runs whose re-fetched
live token list is non-empty (in the fallback branch it is skipped
entirely). In such runs: no fallback token is created, the id sequence of
the list is unchanged, exactly one update call is issued per supplement
intent whose id matches a live token, and — for a single supplement
intent — the update call requests the matched token's current
`remain_quota` plus `supplement_quota`, on success the in-memory quota
becomes the server-confirmed value, and an unmatched intent is skipped
with no call and no change. -/
theorem C1_quota_supplement (env : ReconcileEnv) (intents : List TokenIntent)
    (hne : env.fetch1 ≠ []) :
    (reconcile intents env).fallbackCreates = 0 ∧
    ((reconcile intents env).tokens).map TokenRecord.id = env.fetch1.map TokenRecord.id ∧
    (reconcile intents env).updateCalls.length =
      ((intents.filter isSupplement).filter (fun cfg => hasId env.fetch1 cfg.id)).length ∧
    ∀ cfg, intents.filter isSupplement = [cfg] →
      ((∀ m, env.fetch1.find? (fun t => cfg.id == some t.id) = some m →
          (reconcile intents env).updateCalls =
            [{ m with remain_quota := m.remain_quota + cfg.supplement_quota.getD 0 }] ∧
          ∀ server,
            env.updateResp { m with remain_quota := m.remain_quota + cfg.supplement_quota.getD 0 }
              = some server →
            (reconcile intents env).tokens = setQuotaFirst env.fetch1 m.id server.remain_quota) ∧
       (env.fetch1.find? (fun t => cfg.id == some t.id) = none →
          (reconcile intents env).updateCalls = [] ∧
          (reconcile intents env).tokens = env.fetch1)) := by
  have hlen : ¬ env.fetch1.length = 0 := by
    simpa [List.length_eq_zero] using hne
  have hrec : reconcile intents env =
      { fallbackCreates := 0
        updateCalls := (applySupplements env.updateResp (intents.filter isSupplement) env.fetch1).2
        tokens := (applySupplements env.updateResp (intents.filter isSupplement) env.fetch1).1 } := by
    simp only [reconcile, if_neg hlen]
  rw [hrec]
  refine ⟨rfl, applySupplements_fst_map_id _ _ _, applySupplements_snd_length _ _ _, ?_⟩
  intro cfg hfil
  rw [hfil, applySupplements_single]
  constructor
  · intro m hm
    obtain ⟨h1, h2, _⟩ := supplementOne_found env.updateResp env.fetch1 cfg m hm
    exact ⟨h1, h2⟩
  · intro hm
    rw [supplementOne_not_found env.updateResp env.fetch1 cfg hm]
    exact ⟨rfl, rfl⟩

/-- C1 counterexample: a run whose first re-fetch is empty. The fallback
token is created and the re-fetched list contains a token matching the
supplement intent, yet no update call is issued — supplementation is
skipped in the fallback branch, contradicting the claim that it runs in
every run. -/
theorem C1_fallback_skips_supplement :
    isSupplement cfgSupp = true ∧
    hasId (reconcile [cfgSupp] envC1bad).tokens cfgSupp.id = true ∧
    (reconcile [cfgSupp] envC1bad).updateCalls = [] := by decide

/-- C1 witness: token 1 with quota 100 and a supplement of 50 produce an
update call requesting 150; the server confirms 170 and the in-memory list
takes 170, not the locally computed 150. -/
theorem C1_quota_supplement_witness :
    envC1.fetch1 ≠ [] ∧
    (reconcile [cfgSupp] envC1).updateCalls = [{ tok1 with remain_quota := 150 }] ∧
    (reconcile [cfgSupp] envC1).tokens = [{ tok1 with remain_quota := 170 }] := by
  have h := C1_quota_supplement envC1 [cfgSupp] (by decide)
  have h4 := h.2.2.2 cfgSupp (by decide)
  have hfind : envC1.fetch1.find? (fun t => cfgSupp.id == some t.id) = some tok1 := by decide
  have h5 := h4.1 tok1 hfind
  refine ⟨by decide, ?_, ?_⟩
  · rw [h5.1]
    decide
  · have hs : envC1.updateResp
        { tok1 with remain_quota := tok1.remain_quota + cfgSupp.supplement_quota.getD 0 }
          = some { tok1 with remain_quota := 170 } := by decide
    rw [h5.2 { tok1 with remain_quota := 170 } hs]
    decide

/-- C3 (amended): when the re-fetched live token list is empty, exactly
one fallback creation is issued, and the surfaced list is the second fetch
when the creation succeeds (hence non-empty whenever that fetch returns
tokens) but stays empty when the creation fails; when the list is
non-empty, no fallback creation is issued. -/
theorem C3_bootstrap (env : ReconcileEnv) (intents : List TokenIntent) :
    (env.fetch1 = [] →
      (reconcile intents env).fallbackCreates = 1 ∧
      (env.fallbackCreateOk = true → (reconcile intents env).tokens = env.fetch2) ∧
      (env.fallbackCreateOk = true → env.fetch2 ≠ [] → (reconcile intents env).tokens ≠ []) ∧
      (env.fallbackCreateOk = false → (reconcile intents env).tokens = [])) ∧
    (env.fetch1 ≠ [] → (reconcile intents env).fallbackCreates = 0) := by
  constructor
  · intro h1
    have hlen : env.fetch1.length = 0 := by simp [h1]
    have hrec : reconcile intents env =
        { fallbackCreates := 1
          updateCalls := []
          tokens := if env.fallbackCreateOk then env.fetch2 else env.fetch1 } := by
      simp only [reconcile, if_pos hlen]
    rw [hrec]
    refine ⟨rfl, ?_, ?_, ?_⟩
    · intro hok
      simp [hok]
    · intro hok hne2
      simpa [hok] using hne2
    · intro hok
      simp [hok, h1]
  · intro h2
    have hlen : ¬ env.fetch1.length = 0 := by
      simpa [List.length_eq_zero] using h2
    simp only [reconcile, if_neg hlen]

/-- C3 counterexample: with an empty first fetch and a failing fallback
create, the fallback creation is issued but the surfaced token list is
empty — the claim's guarantee of a non-empty list on return fails. -/
theorem C3_failed_fallback_leaves_empty :
    (reconcile [] envC3).fallbackCreates = 1 ∧ (reconcile [] envC3).tokens = [] := by decide

/-- C3 witness: the amended theorem at an empty first fetch with a
succeeding fallback create and a non-empty second fetch. -/
theorem C3_bootstrap_witness :
    envC1bad.fetch1 = [] ∧
    (reconcile [] envC1bad).fallbackCreates = 1 ∧
    (reconcile [] envC1bad).tokens ≠ [] := by
  have h := (C3_bootstrap envC1bad []).1 rfl
  exact ⟨rfl, h.1, h.2.2.1 rfl (by decide)⟩

/-- The upload-building step yields a record exactly when the first
name-matched live token has a non-empty key. -/
theorem recordForPending_isSome_eq (username accountId : String)
    (tokens : List TokenRecord) (p : PendingSale) :
    (recordForPending username accountId tokens p).isSome = firstMatchHasKey tokens p := by
  unfold recordForPending firstMatchHasKey
  cases hf : tokens.find? (fun t => t.name == p.name) with
  | none => rfl
  | some m => cases hkb : (m.key != "") <;> simp [hkb]

/-- Characterisation of the record the upload-building step yields. -/
theorem recordForPending_eq_some {username accountId : String}
    {tokens : List TokenRecord} {p : PendingSale} {r : KeyRecord} :
    recordForPending username accountId tokens p = some r ↔
    ∃ m, tokens.find? (fun t => t.name == p.name) = some m ∧ m.key ≠ "" ∧
      r = { key := m.key, key_type := "anyrouter", is_sold := false,
            quota := quotaOfPending p,
            source_name := username ++ "&" ++ p.name, account_id := accountId } := by
  unfold recordForPending
  cases hf : tokens.find? (fun t => t.name == p.name) with
  | none => simp
  | some m =>
      by_cases hk : m.key = ""
      · have hkb : (m.key != "") = false := by simp [hk]
        simp [hkb, hk]
      · have hkb : (m.key != "") = true := bne_iff_ne.mpr hk
        simp only [hkb, if_true, Option.some.injEq]
        constructor
        · intro hr
          exact ⟨m, rfl, hk, hr.symm⟩
        · intro ⟨m2, hm2, _, hr⟩
          cases hm2
          exact hr.symm

/-- Exactly one record per candidate whose first name-match carries a key. -/
theorem buildKeys_length (username accountId : String) (pendings : List PendingSale)
    (tokens : List TokenRecord) :
    (buildKeysToUpload username accountId pendings tokens).length =
      (pendings.filter (firstMatchHasKey tokens)).length := by
  induction pendings with
  | nil => rfl
  | cons p ps ih =>
      unfold buildKeysToUpload at ih ⊢
      rw [List.filterMap_cons, List.filter_cons]
      cases hr : recordForPending username accountId tokens p with
      | none =>
          have hfm : firstMatchHasKey tokens p = false := by
            rw [← recordForPending_isSome_eq username accountId tokens p, hr]
            rfl
          simp [hfm, ih]
      | some r =>
          have hfm : firstMatchHasKey tokens p = true := by
            rw [← recordForPending_isSome_eq username accountId tokens p, hr]
            rfl
          simp [hfm, ih]

/-- C7 (amended): the publisher forwards exactly one record per candidate
whose FIRST name-matched live token (the one `tokens.find` returns) has a
non-empty key; the record carries that token's key, key type anyrouter,
is_sold false, the candidate quota divided by 500000, the username joined
to the candidate name with an ampersand, and the account reference. A
candidate whose first match lacks a key — even if a later token with the
same name has one — and a candidate with no match produce nothing. -/
theorem C7_resale_publication (username accountId : String)
    (pendings : List PendingSale) (tokens : List TokenRecord) :
    (buildKeysToUpload username accountId pendings tokens).length =
      (pendings.filter (firstMatchHasKey tokens)).length ∧
    (∀ p ∈ pendings, ∀ m, tokens.find? (fun t => t.name == p.name) = some m → m.key ≠ "" →
      ({ key := m.key, key_type := "anyrouter", is_sold := false,
         quota := quotaOfPending p,
         source_name := username ++ "&" ++ p.name, account_id := accountId } : KeyRecord)
        ∈ buildKeysToUpload username accountId pendings tokens) ∧
    (∀ r ∈ buildKeysToUpload username accountId pendings tokens,
      ∃ p, p ∈ pendings ∧ ∃ m, tokens.find? (fun t => t.name == p.name) = some m ∧
        m.key ≠ "" ∧
        r = { key := m.key, key_type := "anyrouter", is_sold := false,
              quota := quotaOfPending p,
              source_name := username ++ "&" ++ p.name, account_id := accountId }) := by
  refine ⟨buildKeys_length username accountId pendings tokens, ?_, ?_⟩
  · intro p hp m hm hk
    exact List.mem_filterMap.mpr ⟨p, hp, recordForPending_eq_some.mpr ⟨m, hm, hk, rfl⟩⟩
  · intro r hr
    obtain ⟨p, hp, hf⟩ := List.mem_filterMap.mp hr
    obtain ⟨m, hm, hk, hre⟩ := recordForPending_eq_some.mp hf
    exact ⟨p, hp, m, hm, hk, hre⟩

/-- C7 counterexample: some live token carries the candidate name and a
non-empty key, yet nothing is forwarded, because the FIRST token with that
name has an empty key — refuting the claim's "if and only if some token
matches". -/
theorem C7_first_match_blocks :
    (∃ t ∈ [tokEmptyKey, tokGoodKey], t.name = pendX.name ∧ t.key ≠ "") ∧
    buildKeysToUpload "u" "aid" [pendX] [tokEmptyKey, tokGoodKey] = [] := by decide

/-- C7 witness: a candidate whose first match carries key abc is forwarded
as one full record. -/
theorem C7_resale_publication_witness :
    [tokGoodKey].find? (fun t => t.name == pendX.name) = some tokGoodKey ∧
    ({ key := tokGoodKey.key, key_type := "anyrouter", is_sold := false,
       quota := quotaOfPending pendX,
       source_name := "u" ++ "&" ++ pendX.name, account_id := "aid" } : KeyRecord)
      ∈ buildKeysToUpload "u" "aid" [pendX] [tokGoodKey] :=
  ⟨by decide,
    (C7_resale_publication "u" "aid" [pendX] [tokGoodKey]).2.1 pendX (by decide)
      tokGoodKey (by decide) (by decide)⟩

/-- C8 (amended): the publisher issues at most one inventory call, that
call always carries the whole matched-record list (no splitting), and
whenever it carries more than 100 records the collaborator rejects it
with the too-many error instead of uploading. -/
theorem C8_upload_batching (username accountId : String)
    (pendings : List PendingSale) (tokens : List TokenRecord) :
    (uploadCallsOf username accountId pendings tokens).length ≤ 1 ∧
    (∀ call ∈ uploadCallsOf username accountId pendings tokens,
      call = buildKeysToUpload username accountId pendings tokens) ∧
    (∀ call ∈ uploadCallsOf username accountId pendings tokens,
      100 < call.length → addKeysModel call = AddKeysResult.error AddKeysError.tooMany) := by
  unfold uploadCallsOf
  by_cases h1 : pendings.length > 0
  · rw [if_pos h1]
    by_cases h2 : (buildKeysToUpload username accountId pendings tokens).length > 0
    · rw [if_pos h2]
      refine ⟨by simp, ?_, ?_⟩
      · intro call hc
        rwa [List.mem_singleton] at hc
      · intro call hc hlen
        rw [List.mem_singleton] at hc
        subst hc
        unfold addKeysModel
        rw [if_neg (by omega), if_pos hlen]
    · rw [if_neg h2]
      exact ⟨by simp, by simp, by simp⟩
  · rw [if_neg h1]
    exact ⟨by simp, by simp, by simp⟩

/-- C8 counterexample: 101 matched candidates produce one single call
carrying 101 records — more than 100 — and the collaborator rejects it;
no splitting into compliant batches happens. -/
theorem C8_oversized_single_call :
    (uploadCallsOf "u" "aid" pend101 [tokA]).length = 1 ∧
    ((uploadCallsOf "u" "aid" pend101 [tokA]).headD []).length = 101 ∧
    addKeysModel ((uploadCallsOf "u" "aid" pend101 [tokA]).headD [])
      = AddKeysResult.error AddKeysError.tooMany := by decide

/-- C8 witness: the amended theorem applied to the oversized batch. -/
theorem C8_upload_batching_witness :
    buildKeysToUpload "u" "aid" pend101 [tokA] ∈ uploadCallsOf "u" "aid" pend101 [tokA] ∧
    100 < (buildKeysToUpload "u" "aid" pend101 [tokA]).length ∧
    addKeysModel (buildKeysToUpload "u" "aid" pend101 [tokA])
      = AddKeysResult.error AddKeysError.tooMany := by
  have hcalls : uploadCallsOf "u" "aid" pend101 [tokA]
      = [buildKeysToUpload "u" "aid" pend101 [tokA]] := rfl
  have hmem : buildKeysToUpload "u" "aid" pend101 [tokA]
      ∈ uploadCallsOf "u" "aid" pend101 [tokA] := by
    rw [hcalls]
    exact List.mem_singleton.mpr rfl
  have hlen : 100 < (buildKeysToUpload "u" "aid" pend101 [tokA]).length := by decide
  exact ⟨hmem, hlen, (C8_upload_batching "u" "aid" pend101 [tokA]).2.2 _ hmem hlen⟩

/-- C2 (amended): the batch runner drives each account through the run,
but invokes the per-account run with only username and password — the
account entry's token intents are NOT forwarded (the account-info argument
defaults to null). Hence a batch-driven token phase performs no
intent-driven deletions, creations, supplements or resale uploads; only
the intent-independent bootstrap fallback still applies. -/
theorem C2_batch_intent_forwarding (env : RunEnv) (a : Account) :
    batchTokenPhase env a = runTokenPhase none env ∧
    (batchTokenPhase env a).deleteCalls = [] ∧
    (batchTokenPhase env a).createCalls = [] ∧
    (batchTokenPhase env a).pendingSales = [] ∧
    (batchTokenPhase env a).updateCalls = [] ∧
    (batchTokenPhase env a).uploads = [] ∧
    (batchTokenPhase env a).fallbackCreates = (if env.fetch1.length = 0 then 1 else 0) := by
  refine ⟨rfl, ?_⟩
  unfold batchTokenPhase runTokenPhase
  by_cases h : env.fetch1.length = 0
  · simp [reconcile, processIntents, uploadCallsOf, h, applySupplements]
  · simp [reconcile, processIntents, uploadCallsOf, h, applySupplements]

/-- C2 counterexample: a batch account carrying one creation intent. The
batch-driven run issues no create call at all, while passing the account
info (as a direct invocation would) issues exactly the one create the
claim expects — the batch runner does not hand the intents over. -/
theorem C2_intents_not_forwarded :
    aC2.tokens = some [cfgSale] ∧ cfgSale.id = none ∧
    (batchTokenPhase envC2 aC2).createCalls = [] ∧
    (runTokenPhase (some aiC2) envC2).createCalls = [createRequestOf cfgSale] := by decide

/-- C9 (confirmed): the batch runner returns exactly one result entry per
account, in input order; each entry carries that account's username,
succeeds exactly when that account's run returned a non-null result, and
depends only on that account — so one account's failure leaves every
other entry untouched. -/
theorem C9_batch_results (login : String → String → Option UserData)
    (accounts : List Account) :
    (processAccounts login accounts).length = accounts.length ∧
    ∀ i (h1 : i < accounts.length) (h2 : i < (processAccounts login accounts).length),
      (processAccounts login accounts).get ⟨i, h2⟩ =
        { username := (accounts.get ⟨i, h1⟩).username
          success := (login (accounts.get ⟨i, h1⟩).username (accounts.get ⟨i, h1⟩).password).isSome
          data := login (accounts.get ⟨i, h1⟩).username (accounts.get ⟨i, h1⟩).password } := by
  refine ⟨by simp [processAccounts], ?_⟩
  intro i h1 h2
  simp [processAccounts]

/-- C9 witness: three accounts where login fails exactly for the second:
entry 1 is a failure while entries 0 and 2 reflect their own successes. -/
theorem C9_batch_results_witness :
    ((processAccounts loginC9 accountsC9).get ⟨1, by decide⟩ =
      { username := "u2", success := false, data := none }) ∧
    ((processAccounts loginC9 accountsC9).get ⟨0, by decide⟩ =
      { username := "u1", success := true, data := some u1000 }) ∧
    ((processAccounts loginC9 accountsC9).get ⟨2, by decide⟩ =
      { username := "u3", success := true, data := some u1000 }) :=
  ⟨((C9_batch_results loginC9 accountsC9).2 1 (by decide) (by decide)).trans (by decide),
   ((C9_batch_results loginC9 accountsC9).2 0 (by decide) (by decide)).trans (by decide),
   ((C9_batch_results loginC9 accountsC9).2 2 (by decide) (by decide)).trans (by decide)⟩

/-- C10 (amended): for every body outcome, the finally block behaves
identically, and — provided no close operation itself throws — every
acquired resource (page, context, browser) is closed exactly once and
every unacquired one not at all; when an earlier close throws, the
remaining resources are skipped (see the counterexample). -/
theorem C10_cleanup (o : RunOutcome) (e : CleanupEnv)
    (hp : e.pageCloseThrows = false) (hc : e.contextCloseThrows = false)
    (hb : e.browserCloseThrows = false) :
    (finallyCloseCalls o e).count Resource.page = (if e.pageAcquired then 1 else 0) ∧
    (finallyCloseCalls o e).count Resource.ctx = (if e.contextAcquired then 1 else 0) ∧
    (finallyCloseCalls o e).count Resource.browser = (if e.browserAcquired then 1 else 0) ∧
    (∀ o2 : RunOutcome, finallyCloseCalls o2 e = finallyCloseCalls o e) := by
  obtain ⟨pa, ca, ba, pt, ct, bt⟩ := e
  subst hp
  subst hc
  subst hb
  cases pa <;> cases ca <;> cases ba <;>
    exact ⟨by simp only [finallyCloseCalls]; decide,
           by simp only [finallyCloseCalls]; decide,
           by simp only [finallyCloseCalls]; decide,
           fun _ => rfl⟩

/-- C10 counterexample: with all three resources acquired, a throwing
page close is caught by the cleanup's single try/catch and the context
and browser closes are skipped entirely — they are not closed exactly
once on this exit path. -/
theorem C10_throwing_close_leaks :
    eThrowing.contextAcquired = true ∧
    eThrowing.browserAcquired = true ∧
    (finallyCloseCalls RunOutcome.success eThrowing).count Resource.ctx = 0 ∧
    (finallyCloseCalls RunOutcome.success eThrowing).count Resource.browser = 0 := by decide

/-- C10 witness: the amended theorem at a fully acquired state with
well-behaved closes, for the exception outcome. -/
theorem C10_cleanup_witness :
    eAll.pageCloseThrows = false ∧
    ((finallyCloseCalls RunOutcome.raised eAll).count Resource.page
        = (if eAll.pageAcquired then 1 else 0) ∧
     (finallyCloseCalls RunOutcome.raised eAll).count Resource.ctx
        = (if eAll.contextAcquired then 1 else 0) ∧
     (finallyCloseCalls RunOutcome.raised eAll).count Resource.browser
        = (if eAll.browserAcquired then 1 else 0) ∧
     (∀ o2 : RunOutcome, finallyCloseCalls o2 eAll = finallyCloseCalls RunOutcome.raised eAll)) :=
  ⟨rfl, C10_cleanup RunOutcome.raised eAll rfl rfl rfl⟩

end AnyRouter
